import Mathlib

/-!
# Shallow embedding of the nut-allergy graph program (src/main.rs)

The source program reads per-subject CSV records, builds a directed
bipartite graph (petgraph `DiGraph`) linking each individual to the nut
allergy categories whose onset field is present, and aggregates degree
statistics per demographic bucket and per allergy category.

Modelling conventions:
* Rust `f64` fields are modelled as exact rationals `ℚ`; every numeric
  value the program manipulates (onset markers, degree counts, sums and
  averages of small integers) is integral or a ratio of small integers,
  so exact rational arithmetic mirrors the computation.
* petgraph's `DiGraph` is modelled as a list of nodes (a node's index is
  its position, matching `add_node`'s sequential index assignment) plus a
  list of directed edges in insertion order.
* Rust `HashMap`s keyed by strings are modelled as association lists;
  `entry(k).or_insert(z)` followed by a mutation is the `bump` operation,
  `insert` is `setKey`, `get` is `lookupKey`.
* petgraph's `neighbors(node)` on a directed graph iterates only the
  edges *starting at* the node, so its count is the out-neighbor count
  (`outDegree` below).  This is what `calculate_centrality` calls the
  degree of a node.
-/

namespace NutAllergy

/-- One CSV record, as deserialized into the Rust `Record` struct.
`Option ℚ` fields model the `Option<f64>` onset/offset markers. -/
structure Record where
  subject_id : String
  birth_year : Int
  gender_factor : String
  race_factor : String
  ethnicity_factor : String
  payer_factor : String
  atopic_march_cohort : Bool
  age_start_years : ℚ
  age_end_years : ℚ
  peanut_alg_start : Option ℚ
  peanut_alg_end : Option ℚ
  treenut_alg_start : Option ℚ
  treenut_alg_end : Option ℚ
  walnut_alg_start : Option ℚ
  walnut_alg_end : Option ℚ
  pecan_alg_start : Option ℚ
  pecan_alg_end : Option ℚ
  pistach_alg_start : Option ℚ
  pistach_alg_end : Option ℚ
  almond_alg_start : Option ℚ
  almond_alg_end : Option ℚ
  brazil_alg_start : Option ℚ
  brazil_alg_end : Option ℚ
  hazelnut_alg_start : Option ℚ
  hazelnut_alg_end : Option ℚ
  cashew_alg_start : Option ℚ
  cashew_alg_end : Option ℚ
deriving DecidableEq

/-- The Rust `Individual` struct carried by individual graph nodes. -/
structure Individual where
  id : String
  gender : String
  race : String
  ethnicity : String
  payer_factor : String
  atopic_march_cohort : Bool
deriving DecidableEq

/-- The Rust `NodeType` enum: node payloads of the graph. -/
inductive NodeType where
  | Individual (ind : Individual)
  | NutAllergyStatus (name : String)
deriving DecidableEq

/-- petgraph `DiGraph<NodeType, ()>`: nodes indexed by list position,
directed edges as (source index, target index) pairs in insertion order. -/
structure Graph where
  nodes : List NodeType
  edges : List (Nat × Nat)
deriving DecidableEq

/-- The nine allergy category names, in the fixed declared order of the
`allergies` array inside `create_graph`. -/
def allergies : List String :=
  ["Peanut", "Treenut", "Walnut", "Pecan", "Pistachio", "Almond", "Brazil",
   "Hazelnut", "Cashew"]

/-- `Record::get_allergy_start`: dispatch from category name to the
corresponding `*_alg_start` field. -/
def Record.get_allergy_start (r : Record) (allergy : String) : Option ℚ :=
  match allergy with
  | "Peanut" => r.peanut_alg_start
  | "Treenut" => r.treenut_alg_start
  | "Walnut" => r.walnut_alg_start
  | "Pecan" => r.pecan_alg_start
  | "Pistachio" => r.pistach_alg_start
  | "Almond" => r.almond_alg_start
  | "Brazil" => r.brazil_alg_start
  | "Hazelnut" => r.hazelnut_alg_start
  | "Cashew" => r.cashew_alg_start
  | _ => none

/-- Association-list lookup, modelling `HashMap::get`. -/
def lookupKey {β : Type} : List (String × β) → String → Option β
  | [], _ => none
  | p :: rest, k => if p.1 == k then some p.2 else lookupKey rest k

/-- `entry(k).or_insert(z)` followed by an in-place update `f`:
the first binding of `k` is updated, or `(k, f z)` is appended. -/
def bump {M : Type} : List (String × M) → String → M → (M → M) → List (String × M)
  | [], k, z, f => [(k, f z)]
  | p :: rest, k, z, f =>
    if p.1 == k then (p.1, f p.2) :: rest else p :: bump rest k z f

/-- `HashMap::insert`: overwrite the first binding of `k`, or append. -/
def setKey {M : Type} : List (String × M) → String → M → List (String × M)
  | [], k, v => [(k, v)]
  | p :: rest, k, v =>
    if p.1 == k then (k, v) :: rest else p :: setKey rest k v

/-- The contents of the `allergy_nodes` map after the first loop of
`create_graph`: category name to node index, indices assigned in order. -/
def buildAllergyNodes : Nat → List String → List (String × Nat)
  | _, [] => []
  | i, a :: rest => (a, i) :: buildAllergyNodes (i + 1) rest

def allergyNodes : List (String × Nat) := buildAllergyNodes 0 allergies

/-- The `Individual` payload built from a record inside `create_graph`:
the five demographic attributes are copied verbatim. -/
def mkIndividual (r : Record) : Individual :=
  { id := r.subject_id
    gender := r.gender_factor
    race := r.race_factor
    ethnicity := r.ethnicity_factor
    payer_factor := r.payer_factor
    atopic_march_cohort := r.atopic_march_cohort }

/-- The node added to the graph for one record. -/
def indNode (r : Record) : NodeType := NodeType.Individual (mkIndividual r)

/-- The body of the per-record loop of `create_graph`: add one individual
node, then, in category declaration order, add an edge to each category
whose onset field is present.  (The source also computes an `age` local
and an `individual_nodes` map, both of which are never read afterwards
and do not affect the resulting graph.) -/
def buildStep (g : Graph) (record : Record) : Graph :=
  let individual_node := g.nodes.length
  let nodes := g.nodes ++ [indNode record]
  let newEdges := allergies.filterMap (fun allergy =>
    match record.get_allergy_start allergy with
    | some _ =>
      match lookupKey allergyNodes allergy with
      | some allergy_node => some (individual_node, allergy_node)
      | none => none
    | none => none)
  { nodes := nodes, edges := g.edges ++ newEdges }

/-- `create_graph`: nine category nodes in declared order, then one
individual node per record in input order, with presence edges. -/
def create_graph (records : List Record) : Graph :=
  records.foldl buildStep
    { nodes := allergies.map NodeType.NutAllergyStatus, edges := [] }

/-- `graph.neighbors(node).count()`: the number of edges whose source is
the given node (petgraph `neighbors` on a `DiGraph` yields only outgoing
neighbors). -/
def outDegree (g : Graph) (i : Nat) : Nat :=
  (g.edges.filter (fun e => e.1 == i)).length

/-- The number of edges incident to a node, in either direction: the
graph-theoretic degree of the node. -/
def incidentEdgeCount (g : Graph) (i : Nat) : Nat :=
  (g.edges.filter (fun e => e.1 == i || e.2 == i)).length

/-- Whether node index `i` holds an `Individual` payload. -/
def nodeIsIndividual (g : Graph) (i : Nat) : Bool :=
  match g.nodes.get? i with
  | some (NodeType.Individual _) => true
  | _ => false

/-- Whether node index `i` holds a `NutAllergyStatus` payload. -/
def nodeIsCategory (g : Graph) (i : Nat) : Bool :=
  match g.nodes.get? i with
  | some (NodeType.NutAllergyStatus _) => true
  | _ => false

/-- The seven categories analyzed by `calculate_centrality` (its local
`allergies` array): all but Brazil and Hazelnut. -/
def analyzedAllergies : List String :=
  ["Peanut", "Treenut", "Walnut", "Pecan", "Pistachio", "Almond", "Cashew"]

/-- The eleven accumulator `HashMap`s of `calculate_centrality`. -/
structure AnalyzerState where
  gender_centrality : List (String × ℚ)
  race_centrality : List (String × ℚ)
  ethnicity_centrality : List (String × ℚ)
  payer_centrality : List (String × ℚ)
  cohort_centrality : List (String × ℚ)
  allergy_centrality : List (String × ℚ)
  gender_counts : List (String × Nat)
  race_counts : List (String × Nat)
  ethnicity_counts : List (String × Nat)
  payer_counts : List (String × Nat)
  cohort_counts : List (String × Nat)
deriving DecidableEq

def initState : AnalyzerState :=
  { gender_centrality := [], race_centrality := [], ethnicity_centrality := []
    payer_centrality := [], cohort_centrality := [], allergy_centrality := []
    gender_counts := [], race_counts := [], ethnicity_counts := []
    payer_counts := [], cohort_counts := [] }

/-- The body of the node loop of `calculate_centrality` for node index
`i` holding payload `n`. -/
def processNode (g : Graph) (s : AnalyzerState) (i : Nat) (n : NodeType) :
    AnalyzerState :=
  match n with
  | NodeType.Individual individual =>
    let degree : ℚ := (outDegree g i : ℚ)
    { s with
      gender_centrality := bump s.gender_centrality individual.gender 0 (· + degree)
      race_centrality := bump s.race_centrality individual.race 0 (· + degree)
      ethnicity_centrality :=
        bump s.ethnicity_centrality individual.ethnicity 0 (· + degree)
      payer_centrality :=
        bump s.payer_centrality individual.payer_factor 0 (· + degree)
      cohort_centrality :=
        bump s.cohort_centrality
          (if individual.atopic_march_cohort then "true" else "false") 0 (· + degree)
      gender_counts := bump s.gender_counts individual.gender 0 (· + 1)
      race_counts := bump s.race_counts individual.race 0 (· + 1)
      ethnicity_counts := bump s.ethnicity_counts individual.ethnicity 0 (· + 1)
      payer_counts := bump s.payer_counts individual.payer_factor 0 (· + 1)
      cohort_counts :=
        bump s.cohort_counts
          (if individual.atopic_march_cohort then "true" else "false") 0 (· + 1) }
  | NodeType.NutAllergyStatus allergy_status =>
    if analyzedAllergies.contains allergy_status then
      { s with
        allergy_centrality :=
          setKey s.allergy_centrality allergy_status (outDegree g i : ℚ) }
    else s

/-- Iterate `graph.node_indices()` in index order, threading the state. -/
def analyzeNodes (g : Graph) : Nat → List NodeType → AnalyzerState → AnalyzerState
  | _, [], s => s
  | i, n :: rest, s => analyzeNodes g (i + 1) rest (processNode g s i n)

/-- The final per-bucket averages: for each accumulated sum, divide by
the recorded member count, defaulting to 1 when absent
(`counts.get(key).unwrap_or(&1)`). -/
def averages (cent : List (String × ℚ)) (counts : List (String × Nat)) :
    List (String × ℚ) :=
  cent.map (fun p =>
    (p.1, p.2 / (match lookupKey counts p.1 with
                 | some c => (c : ℚ)
                 | none => 1)))

/-- The structured report produced by `calculate_centrality`: the five
demographic average mappings and the category raw-value mapping. -/
structure Report where
  gender : List (String × ℚ)
  race : List (String × ℚ)
  ethnicity : List (String × ℚ)
  payer : List (String × ℚ)
  cohort : List (String × ℚ)
  allergy : List (String × ℚ)
deriving DecidableEq

/-- `calculate_centrality`: one pass over all nodes in index order
accumulating the eleven maps, then the averaging loops. -/
def calculate_centrality (g : Graph) : Report :=
  let s := analyzeNodes g 0 g.nodes initState
  { gender := averages s.gender_centrality s.gender_counts
    race := averages s.race_centrality s.race_counts
    ethnicity := averages s.ethnicity_centrality s.ethnicity_counts
    payer := averages s.payer_centrality s.payer_counts
    cohort := averages s.cohort_centrality s.cohort_counts
    allergy := s.allergy_centrality }

/-- Two complete pipeline executions over the same input, as in the
source each starting from a fresh graph and fresh analyzer maps (the
source holds no state between calls). -/
def runTwice (records : List Record) : Report × Report :=
  let first := calculate_centrality (create_graph records)
  let second := calculate_centrality (create_graph records)
  (first, second)

/-- Whether a node payload is a category node. -/
def isCategoryNode : NodeType → Bool
  | NodeType.NutAllergyStatus _ => true
  | NodeType.Individual _ => false

/-- Whether a node payload is an individual node. -/
def isIndividualNode : NodeType → Bool
  | NodeType.Individual _ => true
  | NodeType.NutAllergyStatus _ => false

/-- The number of present onset fields of a record, one term per field. -/
def numPresentOnsets (r : Record) : Nat :=
  (if r.peanut_alg_start.isSome then 1 else 0) +
  (if r.treenut_alg_start.isSome then 1 else 0) +
  (if r.walnut_alg_start.isSome then 1 else 0) +
  (if r.pecan_alg_start.isSome then 1 else 0) +
  (if r.pistach_alg_start.isSome then 1 else 0) +
  (if r.almond_alg_start.isSome then 1 else 0) +
  (if r.brazil_alg_start.isSome then 1 else 0) +
  (if r.hazelnut_alg_start.isSome then 1 else 0) +
  (if r.cashew_alg_start.isSome then 1 else 0)

/-- The mock record of the source's test module (`get_mock_records`):
only the peanut onset field is present. -/
def mockRecord : Record :=
  { subject_id := "205650", birth_year := 2000, gender_factor := "Male",
    race_factor := "Race1", ethnicity_factor := "Ethnicity1",
    payer_factor := "Payer1", atopic_march_cohort := true,
    age_start_years := 5, age_end_years := 10,
    peanut_alg_start := some 1, peanut_alg_end := some 2,
    treenut_alg_start := none, treenut_alg_end := none,
    walnut_alg_start := none, walnut_alg_end := none,
    pecan_alg_start := none, pecan_alg_end := none,
    pistach_alg_start := none, pistach_alg_end := none,
    almond_alg_start := none, almond_alg_end := none,
    brazil_alg_start := none, brazil_alg_end := none,
    hazelnut_alg_start := none, hazelnut_alg_end := none,
    cashew_alg_start := none, cashew_alg_end := none }

/-- The demographic key by which `calculate_centrality` buckets an
individual for the gender dimension. -/
def genderKey (r : Record) : String := r.gender_factor

def raceKey (r : Record) : String := r.race_factor

def ethnicityKey (r : Record) : String := r.ethnicity_factor

def payerKey (r : Record) : String := r.payer_factor

/-- The cohort flag rendered as a two-valued key, as by `to_string()`. -/
def cohortKey (r : Record) : String :=
  if r.atopic_march_cohort then "true" else "false"

/-- The (bucket key, value) pairs contributed by a run of records whose
individual nodes occupy consecutive indices starting at `n`. -/
def pairsOf {M : Type} (key : Record → String) (v : Nat → M) :
    Nat → List Record → List (String × M)
  | _, [] => []
  | n, r :: rest => (key r, v n) :: pairsOf key v (n + 1) rest

/-- The (bucket key, individual degree) pairs of a graph built from
`rs`, for one demographic dimension: individual nodes start at index 9. -/
def degPairs (g : Graph) (key : Record → String) (rs : List Record) :
    List (String × ℚ) :=
  pairsOf key (fun i => (outDegree g i : ℚ)) 9 rs

/-- The members of one demographic bucket: the (key, degree) pairs whose
key is `v`. -/
def bucketOf (g : Graph) (key : Record → String) (rs : List Record)
    (v : String) : List (String × ℚ) :=
  (degPairs g key rs).filter (fun p => p.1 == v)

/-- The fields of a record that `create_graph` reads: subject id, the
five demographic attributes, and the nine onset (`*_alg_start`) fields.
`birth_year`, the age window and the `*_alg_end` fields are absent. -/
def relevantFields (r : Record) :
    String × String × String × String × String × Bool ×
    Option ℚ × Option ℚ × Option ℚ × Option ℚ × Option ℚ × Option ℚ ×
    Option ℚ × Option ℚ × Option ℚ :=
  (r.subject_id, r.gender_factor, r.race_factor, r.ethnicity_factor,
   r.payer_factor, r.atopic_march_cohort,
   r.peanut_alg_start, r.treenut_alg_start, r.walnut_alg_start,
   r.pecan_alg_start, r.pistach_alg_start, r.almond_alg_start,
   r.brazil_alg_start, r.hazelnut_alg_start, r.cashew_alg_start)

/-- A record agreeing with `mockRecord` on every field `create_graph`
reads, but with a different birth year, age window, and offset
(`*_alg_end`) fields — including a hazelnut offset with no hazelnut
onset. -/
def mockRecordVariant : Record :=
  { mockRecord with
    birth_year := 1990, age_start_years := 1, age_end_years := 2,
    peanut_alg_end := none, hazelnut_alg_end := some 7 }

/-- A record like `mockRecord` with exactly two onset fields present. -/
def recDegTwo : Record :=
  { mockRecord with
    treenut_alg_start := some 1 }

/-- A record like `mockRecord` with exactly three onset fields present. -/
def recDegThree : Record :=
  { mockRecord with
    treenut_alg_start := some 1, walnut_alg_start := some 1 }

/-- A record like `mockRecord` with exactly four onset fields present. -/
def recDegFour : Record :=
  { mockRecord with
    treenut_alg_start := some 1, walnut_alg_start := some 1,
    pecan_alg_start := some 1 }

/-- A record like `mockRecord` with exactly six onset fields present. -/
def recDegSix : Record :=
  { mockRecord with
    treenut_alg_start := some 1, walnut_alg_start := some 1,
    pecan_alg_start := some 1, pistach_alg_start := some 1,
    almond_alg_start := some 1 }

/-- A fold over a node list threading the running node index, the shape
of the node loop of `calculate_centrality` on a single projected map. -/
def foldIdx {α : Type} (f : α → Nat → NodeType → α) : Nat → List NodeType → α → α
  | _, [], a => a
  | i, n :: rest, a => foldIdx f (i + 1) rest (f a i n)

/-- The action of one node on a single demographic accumulator map:
individuals bump their bucket by `v i`, category nodes are ignored. -/
def dimStep {M : Type} [Add M] (keyI : Individual → String) (z : M) (v : Nat → M)
    (m : List (String × M)) (i : Nat) (n : NodeType) : List (String × M) :=
  match n with
  | NodeType.Individual ind => bump m (keyI ind) z (· + v i)
  | NodeType.NutAllergyStatus _ => m

/-- The action of one node on the `allergy_centrality` map: analyzed
category nodes store their computed centrality, everything else is
ignored. -/
def allergyStep (g : Graph) (m : List (String × ℚ)) (i : Nat) (n : NodeType) :
    List (String × ℚ) :=
  match n with
  | NodeType.Individual _ => m
  | NodeType.NutAllergyStatus allergy_status =>
    if analyzedAllergies.contains allergy_status then
      setKey m allergy_status ((outDegree g i : ℚ))
    else m

/-- Folding a list of (key, value) pairs into an accumulator map by
repeated `bump`. -/
def bumpFold {M : Type} [Add M] (z : M) (ps : List (String × M))
    (m : List (String × M)) : List (String × M) :=
  ps.foldl (fun acc p => bump acc p.1 z (· + p.2)) m

/-- The category map `calculate_centrality` builds: each analyzed
category paired with the centrality computed at its node. -/
def analyzedRaw (g : Graph) : List (String × ℚ) :=
  analyzedAllergies.map (fun a => (a, (outDegree g (allergies.indexOf a) : ℚ)))

/-! ## Structural characterization of `create_graph` -/

/-- The edge list contributed by one record whose individual node got
index `n`: the per-record inner loop of `create_graph`. -/
def edgesFor (r : Record) (n : Nat) : List (Nat × Nat) :=
  allergies.filterMap (fun allergy =>
    match r.get_allergy_start allergy with
    | some _ =>
      match lookupKey allergyNodes allergy with
      | some allergy_node => some (n, allergy_node)
      | none => none
    | none => none)

/-- The edges contributed by a run of records whose individual nodes
occupy consecutive indices starting at `n`. -/
def edgesFrom (n : Nat) : List Record → List (Nat × Nat)
  | [] => []
  | r :: rest => edgesFor r n ++ edgesFrom (n + 1) rest

/-- Either a singleton edge or nothing, depending on presence of an
onset marker. -/
def optEdge (o : Option ℚ) (n k : Nat) : List (Nat × Nat) :=
  match o with
  | some _ => [(n, k)]
  | none => []

theorem foldl_buildStep (rs : List Record) :
    ∀ (ns : List NodeType) (es : List (Nat × Nat)),
      rs.foldl buildStep { nodes := ns, edges := es } =
        { nodes := ns ++ rs.map indNode, edges := es ++ edgesFrom ns.length rs } := by
  induction rs with
  | nil => intro ns es; simp [edgesFrom]
  | cons r rest ih =>
    intro ns es
    show rest.foldl buildStep (buildStep { nodes := ns, edges := es } r) = _
    have hb : buildStep { nodes := ns, edges := es } r =
        { nodes := ns ++ [indNode r], edges := es ++ edgesFor r ns.length } := rfl
    rw [hb, ih]
    simp [edgesFrom, List.append_assoc]

theorem create_graph_eq (rs : List Record) :
    create_graph rs =
      { nodes := allergies.map NodeType.NutAllergyStatus ++ rs.map indNode
        edges := edgesFrom 9 rs } := by
  show rs.foldl buildStep _ = _
  rw [foldl_buildStep]
  rfl

theorem gas_peanut (r : Record) :
    r.get_allergy_start "Peanut" = r.peanut_alg_start := rfl

theorem gas_treenut (r : Record) :
    r.get_allergy_start "Treenut" = r.treenut_alg_start := rfl

theorem gas_walnut (r : Record) :
    r.get_allergy_start "Walnut" = r.walnut_alg_start := rfl

theorem gas_pecan (r : Record) :
    r.get_allergy_start "Pecan" = r.pecan_alg_start := rfl

theorem gas_pistachio (r : Record) :
    r.get_allergy_start "Pistachio" = r.pistach_alg_start := rfl

theorem gas_almond (r : Record) :
    r.get_allergy_start "Almond" = r.almond_alg_start := rfl

theorem gas_brazil (r : Record) :
    r.get_allergy_start "Brazil" = r.brazil_alg_start := rfl

theorem gas_hazelnut (r : Record) :
    r.get_allergy_start "Hazelnut" = r.hazelnut_alg_start := rfl

theorem gas_cashew (r : Record) :
    r.get_allergy_start "Cashew" = r.cashew_alg_start := rfl

theorem lk_peanut : lookupKey allergyNodes "Peanut" = some 0 := rfl

theorem lk_treenut : lookupKey allergyNodes "Treenut" = some 1 := rfl

theorem lk_walnut : lookupKey allergyNodes "Walnut" = some 2 := rfl

theorem lk_pecan : lookupKey allergyNodes "Pecan" = some 3 := rfl

theorem lk_pistachio : lookupKey allergyNodes "Pistachio" = some 4 := rfl

theorem lk_almond : lookupKey allergyNodes "Almond" = some 5 := rfl

theorem lk_brazil : lookupKey allergyNodes "Brazil" = some 6 := rfl

theorem lk_hazelnut : lookupKey allergyNodes "Hazelnut" = some 7 := rfl

theorem lk_cashew : lookupKey allergyNodes "Cashew" = some 8 := rfl

/-- Folding `filterMap` over the category list, one step, when the head
produces the optional edge described by onset marker `o`. -/
theorem filterMap_opt_step (f : String → Option (Nat × Nat)) (a : String)
    (l : List String) (o : Option ℚ) (n k : Nat)
    (h : f a = match o with | some _ => some (n, k) | none => none) :
    List.filterMap f (a :: l) = optEdge o n k ++ List.filterMap f l := by
  cases o <;> simp_all [List.filterMap_cons, optEdge]

/-- Normal form for the edge list of one record: one optional edge per
category, in declaration order, targeting that category's node index. -/
theorem edgesFor_eq (r : Record) (n : Nat) :
    edgesFor r n =
      optEdge r.peanut_alg_start n 0 ++ optEdge r.treenut_alg_start n 1 ++
      optEdge r.walnut_alg_start n 2 ++ optEdge r.pecan_alg_start n 3 ++
      optEdge r.pistach_alg_start n 4 ++ optEdge r.almond_alg_start n 5 ++
      optEdge r.brazil_alg_start n 6 ++ optEdge r.hazelnut_alg_start n 7 ++
      optEdge r.cashew_alg_start n 8 := by
  unfold edgesFor
  rw [show allergies = ["Peanut", "Treenut", "Walnut", "Pecan", "Pistachio",
    "Almond", "Brazil", "Hazelnut", "Cashew"] from rfl]
  rw [filterMap_opt_step _ _ _ r.peanut_alg_start n 0
    (by cases hp : r.peanut_alg_start <;> simp [gas_peanut, lk_peanut, hp])]
  rw [filterMap_opt_step _ _ _ r.treenut_alg_start n 1
    (by cases hp : r.treenut_alg_start <;> simp [gas_treenut, lk_treenut, hp])]
  rw [filterMap_opt_step _ _ _ r.walnut_alg_start n 2
    (by cases hp : r.walnut_alg_start <;> simp [gas_walnut, lk_walnut, hp])]
  rw [filterMap_opt_step _ _ _ r.pecan_alg_start n 3
    (by cases hp : r.pecan_alg_start <;> simp [gas_pecan, lk_pecan, hp])]
  rw [filterMap_opt_step _ _ _ r.pistach_alg_start n 4
    (by cases hp : r.pistach_alg_start <;> simp [gas_pistachio, lk_pistachio, hp])]
  rw [filterMap_opt_step _ _ _ r.almond_alg_start n 5
    (by cases hp : r.almond_alg_start <;> simp [gas_almond, lk_almond, hp])]
  rw [filterMap_opt_step _ _ _ r.brazil_alg_start n 6
    (by cases hp : r.brazil_alg_start <;> simp [gas_brazil, lk_brazil, hp])]
  rw [filterMap_opt_step _ _ _ r.hazelnut_alg_start n 7
    (by cases hp : r.hazelnut_alg_start <;> simp [gas_hazelnut, lk_hazelnut, hp])]
  rw [filterMap_opt_step _ _ _ r.cashew_alg_start n 8
    (by cases hp : r.cashew_alg_start <;> simp [gas_cashew, lk_cashew, hp])]
  simp [List.append_assoc]

theorem mem_optEdge (e : Nat × Nat) (o : Option ℚ) (n k : Nat) :
    e ∈ optEdge o n k ↔ o.isSome = true ∧ e.1 = n ∧ e.2 = k := by
  cases o <;> simp [optEdge, Prod.ext_iff]

theorem length_optEdge (o : Option ℚ) (n k : Nat) :
    (optEdge o n k).length = if o.isSome then 1 else 0 := by
  cases o <;> rfl

theorem mem_edgesFor (r : Record) (n : Nat) (e : Nat × Nat)
    (he : e ∈ edgesFor r n) : e.1 = n ∧ e.2 < 9 := by
  rw [edgesFor_eq] at he
  simp only [List.mem_append, mem_optEdge] at he
  rcases he with ((((((((h | h) | h) | h) | h) | h) | h) | h) | h) <;>
    exact ⟨h.2.1, by omega⟩

theorem mem_edgesFrom (rs : List Record) :
    ∀ (n : Nat) (e : Nat × Nat), e ∈ edgesFrom n rs →
      n ≤ e.1 ∧ e.1 < n + rs.length ∧ e.2 < 9 := by
  induction rs with
  | nil => intro n e he; simp [edgesFrom] at he
  | cons r rest ih =>
    intro n e he
    simp only [edgesFrom, List.mem_append] at he
    rcases he with h | h
    · obtain ⟨h1, h2⟩ := mem_edgesFor r n e h
      refine ⟨le_of_eq h1.symm, ?_, h2⟩
      simp only [List.length_cons]
      omega
    · obtain ⟨h1, h2, h3⟩ := ih (n + 1) e h
      refine ⟨by omega, ?_, h3⟩
      simp only [List.length_cons]
      omega

/-- The edges whose source is the `j`-th individual node are exactly the
edges contributed by the `j`-th record. -/
theorem filter_edgesFrom (rs : List Record) :
    ∀ (n j : Nat) (hj : j < rs.length),
      (edgesFrom n rs).filter (fun e => e.1 == n + j) =
        edgesFor (rs.get ⟨j, hj⟩) (n + j) := by
  induction rs with
  | nil => intro n j hj; simp at hj
  | cons r rest ih =>
    intro n j hj
    simp only [edgesFrom, List.filter_append]
    cases j with
    | zero =>
      have h1 : (edgesFor r n).filter (fun e => e.1 == n + 0) = edgesFor r n := by
        apply List.filter_eq_self.mpr
        intro e he
        have := (mem_edgesFor r n e he).1
        simp [this]
      have h2 : (edgesFrom (n + 1) rest).filter (fun e => e.1 == n + 0) = [] := by
        apply List.filter_eq_nil_iff.mpr
        intro e he
        have := (mem_edgesFrom rest (n + 1) e he).1
        simp only [beq_iff_eq]
        omega
      rw [h1, h2, List.append_nil]
      rfl
    | succ j2 =>
      have h1 : (edgesFor r n).filter (fun e => e.1 == n + (j2 + 1)) = [] := by
        apply List.filter_eq_nil_iff.mpr
        intro e he
        have := (mem_edgesFor r n e he).1
        simp only [beq_iff_eq]
        omega
      have hj2 : j2 < rest.length := by simp at hj; omega
      have h2 := ih (n + 1) j2 hj2
      rw [h1, List.nil_append]
      have harith : n + 1 + j2 = n + (j2 + 1) := by omega
      rw [harith] at h2
      rw [h2]
      rfl

theorem length_edgesFor (r : Record) (n : Nat) :
    (edgesFor r n).length = numPresentOnsets r := by
  rw [edgesFor_eq]
  simp only [List.length_append, length_optEdge, numPresentOnsets]

theorem outDegree_individual (rs : List Record) (j : Nat) (hj : j < rs.length) :
    outDegree (create_graph rs) (9 + j) = numPresentOnsets (rs.get ⟨j, hj⟩) := by
  unfold outDegree
  rw [create_graph_eq]
  show ((edgesFrom 9 rs).filter (fun e => e.1 == 9 + j)).length = _
  rw [filter_edgesFrom rs 9 j hj, length_edgesFor]

theorem optEdge_sublist (o : Option ℚ) (n k : Nat) :
    List.Sublist (optEdge o n k) [(n, k)] := by
  cases o
  · exact List.nil_sublist _
  · exact List.Sublist.refl _

theorem nodup_edgesFor (r : Record) (n : Nat) : (edgesFor r n).Nodup := by
  have hsub : List.Sublist (edgesFor r n)
      [(n, 0), (n, 1), (n, 2), (n, 3), (n, 4), (n, 5), (n, 6), (n, 7), (n, 8)] := by
    rw [edgesFor_eq]
    exact ((((((((optEdge_sublist r.peanut_alg_start n 0).append
      (optEdge_sublist r.treenut_alg_start n 1)).append
      (optEdge_sublist r.walnut_alg_start n 2)).append
      (optEdge_sublist r.pecan_alg_start n 3)).append
      (optEdge_sublist r.pistach_alg_start n 4)).append
      (optEdge_sublist r.almond_alg_start n 5)).append
      (optEdge_sublist r.brazil_alg_start n 6)).append
      (optEdge_sublist r.hazelnut_alg_start n 7)).append
      (optEdge_sublist r.cashew_alg_start n 8)
  have hnodup :
      ([(n, 0), (n, 1), (n, 2), (n, 3), (n, 4), (n, 5), (n, 6), (n, 7),
        (n, 8)] : List (Nat × Nat)).Nodup := by
    simp [Prod.ext_iff]
  exact hnodup.sublist hsub

theorem nodup_edgesFrom (rs : List Record) : ∀ n, (edgesFrom n rs).Nodup := by
  induction rs with
  | nil => intro n; simp [edgesFrom]
  | cons r rest ih =>
    intro n
    simp only [edgesFrom]
    refine List.Nodup.append (nodup_edgesFor r n) (ih (n + 1)) ?_
    intro e he1 he2
    have h1 := (mem_edgesFor r n e he1).1
    have h2 := (mem_edgesFrom rest (n + 1) e he2).1
    omega

theorem nodes_create_graph (rs : List Record) :
    (create_graph rs).nodes =
      allergies.map NodeType.NutAllergyStatus ++ rs.map indNode :=
  congrArg Graph.nodes (create_graph_eq rs)

theorem edges_create_graph (rs : List Record) :
    (create_graph rs).edges = edgesFrom 9 rs :=
  congrArg Graph.edges (create_graph_eq rs)

theorem nodeIsCategory_of (rs : List Record) (i : Nat) (h : i < 9) :
    nodeIsCategory (create_graph rs) i = true := by
  unfold nodeIsCategory
  rw [nodes_create_graph]
  rw [List.get?_append (by
    rw [show (allergies.map NodeType.NutAllergyStatus).length = 9 from rfl]; omega)]
  rw [List.get?_map]
  rw [List.get?_eq_get (by rw [show allergies.length = 9 from rfl]; omega)]
  rfl

theorem nodeIsIndividual_of (rs : List Record) (i : Nat) (h1 : 9 ≤ i)
    (h2 : i < 9 + rs.length) : nodeIsIndividual (create_graph rs) i = true := by
  unfold nodeIsIndividual
  rw [nodes_create_graph]
  rw [List.get?_append_right (by
    rw [show (allergies.map NodeType.NutAllergyStatus).length = 9 from rfl]; omega)]
  rw [show (allergies.map NodeType.NutAllergyStatus).length = 9 from rfl]
  rw [List.get?_map]
  rw [List.get?_eq_get (by omega)]
  rfl

/-! ## Claims -/

/-- C2: for every input record sequence (including the empty one), the
graph returned by `create_graph` contains exactly 9 category nodes, one
per category in the fixed declared order Peanut, Treenut, Walnut, Pecan,
Pistachio, Almond, Brazil, Hazelnut, Cashew, all created before any
individual node. -/
theorem c2_nine_categories (rs : List Record) :
    ((create_graph rs).nodes.countP isCategoryNode) = 9 ∧
    (create_graph rs).nodes.take 9 = allergies.map NodeType.NutAllergyStatus ∧
    ((create_graph rs).nodes.drop 9).all isIndividualNode = true := by
  rw [create_graph_eq]
  refine ⟨?_, ?_, ?_⟩
  · show (allergies.map NodeType.NutAllergyStatus ++ rs.map indNode).countP
      isCategoryNode = 9
    rw [List.countP_append]
    have h1 : (allergies.map NodeType.NutAllergyStatus).countP isCategoryNode = 9 :=
      rfl
    have h2 : ∀ l : List Record, (l.map indNode).countP isCategoryNode = 0 := by
      intro l
      induction l with
      | nil => rfl
      | cons a t ih =>
        simp [List.countP_cons, isCategoryNode, indNode, ih]
    rw [h1, h2]
  · show (allergies.map NodeType.NutAllergyStatus ++ rs.map indNode).take 9 = _
    rw [show (9 : Nat) = (allergies.map NodeType.NutAllergyStatus).length from rfl,
      List.take_left]
  · show ((allergies.map NodeType.NutAllergyStatus ++ rs.map indNode).drop 9).all
      isIndividualNode = true
    rw [show (9 : Nat) = (allergies.map NodeType.NutAllergyStatus).length from rfl,
      List.drop_left]
    induction rs with
    | nil => rfl
    | cons a t ih => simp [isIndividualNode, indNode, ih]

/-- C7: `create_graph` creates exactly one individual node per record, in
input order, copying the five demographic attributes verbatim
(`mkIndividual`), never merging or deduplicating nodes; the overall node
list is the nine categories in declared order followed by the individuals
in input order. -/
theorem c7_nodes_order (rs : List Record) :
    (create_graph rs).nodes =
      allergies.map NodeType.NutAllergyStatus ++ rs.map indNode := by
  rw [create_graph_eq]

/-- C9: running graph construction plus analysis twice on the same input
produces identical reports; the pipeline retains no state between runs. -/
theorem c9_deterministic (rs : List Record) :
    (runTwice rs).1 = (runTwice rs).2 := rfl

/-- C8: in every graph produced by `create_graph`, every edge runs from
an individual node to a category node (never the other direction), and no
(individual, category) pair carries more than one edge. -/
theorem c8_bipartite_unique (rs : List Record) :
    ((create_graph rs).edges.all (fun e =>
      nodeIsIndividual (create_graph rs) e.1 &&
      nodeIsCategory (create_graph rs) e.2)) = true ∧
    (create_graph rs).edges.Nodup := by
  constructor
  · rw [List.all_eq_true]
    intro e he
    have he2 : e ∈ edgesFrom 9 rs := by
      rw [create_graph_eq] at he
      exact he
    obtain ⟨h1, h2, h3⟩ := mem_edgesFrom rs 9 e he2
    rw [Bool.and_eq_true]
    exact ⟨nodeIsIndividual_of rs e.1 h1 h2, nodeIsCategory_of rs e.2 h3⟩
  · rw [edges_create_graph]
    exact nodup_edgesFrom rs 9

/-- C1 (evaluation at the failing input): on the single mock record whose
only present onset field is Peanut, the Peanut category node (index 0)
has exactly 1 incident edge, yet the centrality `calculate_centrality`
computes and stores for every analyzed category — Peanut included — is 0,
because `neighbors` on a directed petgraph counts only outgoing edges and
category nodes have none.  The claimed equality of the computed category
degree with the incident edge count (Peanut degree 1) fails on the code. -/
theorem c1_category_degree_bug :
    incidentEdgeCount (create_graph [mockRecord]) 0 = 1 ∧
    lookupKey (calculate_centrality (create_graph [mockRecord])).allergy "Peanut"
      = some 0 ∧
    (calculate_centrality (create_graph [mockRecord])).allergy =
      analyzedAllergies.map (fun a => (a, (0 : ℚ))) ∧
    (1 : Nat) ≠ 0 := by
  refine ⟨rfl, by decide, by decide, by decide⟩

/-- C6: for the empty record sequence the graph has exactly 9 nodes and
no edges, and the report has empty demographic-average mappings for all
five dimensions and value 0 for each of the seven analyzed categories. -/
theorem c6_empty_input :
    (create_graph []).nodes.length = 9 ∧
    (create_graph []).edges = [] ∧
    (calculate_centrality (create_graph [])).gender = [] ∧
    (calculate_centrality (create_graph [])).race = [] ∧
    (calculate_centrality (create_graph [])).ethnicity = [] ∧
    (calculate_centrality (create_graph [])).payer = [] ∧
    (calculate_centrality (create_graph [])).cohort = [] ∧
    (calculate_centrality (create_graph [])).allergy =
      analyzedAllergies.map (fun a => (a, (0 : ℚ))) := by
  refine ⟨rfl, rfl, rfl, rfl, rfl, rfl, rfl, by decide⟩

theorem idx_peanut : allergies.indexOf "Peanut" = 0 := rfl

theorem idx_treenut : allergies.indexOf "Treenut" = 1 := rfl

theorem idx_walnut : allergies.indexOf "Walnut" = 2 := rfl

theorem idx_pecan : allergies.indexOf "Pecan" = 3 := rfl

theorem idx_pistachio : allergies.indexOf "Pistachio" = 4 := rfl

theorem idx_almond : allergies.indexOf "Almond" = 5 := rfl

theorem idx_brazil : allergies.indexOf "Brazil" = 6 := rfl

theorem idx_hazelnut : allergies.indexOf "Hazelnut" = 7 := rfl

theorem idx_cashew : allergies.indexOf "Cashew" = 8 := rfl

/-- Membership of the `(individual, category)` edge in one record's edge
contribution is exactly the presence of that category's onset marker. -/
theorem mem_edgesFor_iff (r : Record) (n : Nat) (a : String)
    (ha : a ∈ allergies) :
    (n, allergies.indexOf a) ∈ edgesFor r n ↔
      (r.get_allergy_start a).isSome = true := by
  have ha2 : a = "Peanut" ∨ a = "Treenut" ∨ a = "Walnut" ∨ a = "Pecan" ∨
      a = "Pistachio" ∨ a = "Almond" ∨ a = "Brazil" ∨ a = "Hazelnut" ∨
      a = "Cashew" := by
    simpa [allergies] using ha
  rw [edgesFor_eq]
  rcases ha2 with rfl | rfl | rfl | rfl | rfl | rfl | rfl | rfl | rfl <;>
    simp [List.mem_append, mem_optEdge, gas_peanut, gas_treenut, gas_walnut,
      gas_pecan, gas_pistachio, gas_almond, gas_brazil, gas_hazelnut, gas_cashew,
      idx_peanut, idx_treenut, idx_walnut, idx_pecan, idx_pistachio, idx_almond,
      idx_brazil, idx_hazelnut, idx_cashew]

/-- C3: for every record and category, the graph has an edge from the
record's individual node (index 9 + j) to the category's node iff the
record's onset marker for that category is present, independent of its
numeric value; and the individual node's out-degree equals the number of
present onset fields of its source record. -/
theorem c3_edge_iff_present (rs : List Record) (j : Nat) (a : String)
    (hj : j < rs.length) (ha : a ∈ allergies) :
    ((9 + j, allergies.indexOf a) ∈ (create_graph rs).edges ↔
      ((rs.get ⟨j, hj⟩).get_allergy_start a).isSome = true) ∧
    outDegree (create_graph rs) (9 + j) = numPresentOnsets (rs.get ⟨j, hj⟩) := by
  refine ⟨?_, outDegree_individual rs j hj⟩
  rw [edges_create_graph]
  have hfilter := filter_edgesFrom rs 9 j hj
  constructor
  · intro hmem
    have hmem2 : (9 + j, allergies.indexOf a) ∈
        (edgesFrom 9 rs).filter (fun e => e.1 == 9 + j) :=
      List.mem_filter.mpr ⟨hmem, by simp⟩
    rw [hfilter] at hmem2
    exact (mem_edgesFor_iff (rs.get ⟨j, hj⟩) (9 + j) a ha).mp hmem2
  · intro hpres
    have hmem2 : (9 + j, allergies.indexOf a) ∈
        edgesFor (rs.get ⟨j, hj⟩) (9 + j) :=
      (mem_edgesFor_iff (rs.get ⟨j, hj⟩) (9 + j) a ha).mpr hpres
    rw [← hfilter] at hmem2
    exact (List.mem_filter.mp hmem2).1

/-- Witness for C3 at the concrete mock input: the peanut edge of the
single-record graph exists iff the peanut onset is present, and the
individual node's out-degree is its record's present-onset count (1). -/
theorem c3_witness :
    ((9 + 0, allergies.indexOf "Peanut") ∈ (create_graph [mockRecord]).edges ↔
      ((([mockRecord] : List Record).get ⟨0, by decide⟩).get_allergy_start
        "Peanut").isSome = true) ∧
    outDegree (create_graph [mockRecord]) (9 + 0) =
      numPresentOnsets (([mockRecord] : List Record).get ⟨0, by decide⟩) :=
  c3_edge_iff_present [mockRecord] 0 "Peanut" (by decide) (by decide)

/-! ## Analyzer machinery -/

theorem analyzeNodes_proj {α : Type} (g : Graph) (π : AnalyzerState → α)
    (f : α → Nat → NodeType → α)
    (h : ∀ s i n, π (processNode g s i n) = f (π s) i n) :
    ∀ (l : List NodeType) (i : Nat) (s : AnalyzerState),
      π (analyzeNodes g i l s) = foldIdx f i l (π s) := by
  intro l
  induction l with
  | nil => intro i s; rfl
  | cons n rest ih =>
    intro i s
    show π (analyzeNodes g (i + 1) rest (processNode g s i n)) = _
    rw [ih (i + 1) (processNode g s i n), h]
    rfl

theorem foldIdx_append {α : Type} (f : α → Nat → NodeType → α) :
    ∀ (l1 l2 : List NodeType) (i : Nat) (a : α),
      foldIdx f i (l1 ++ l2) a = foldIdx f (i + l1.length) l2 (foldIdx f i l1 a) := by
  intro l1
  induction l1 with
  | nil => intro l2 i a; simp [foldIdx]
  | cons x t ih =>
    intro l2 i a
    show foldIdx f (i + 1) (t ++ l2) (f a i x) = _
    rw [ih l2 (i + 1) (f a i x)]
    have harith : i + 1 + t.length = i + (x :: t).length := by
      simp [List.length_cons]; omega
    rw [harith]
    rfl

theorem dimStep_cats {M : Type} [Add M] (keyI : Individual → String) (z : M)
    (v : Nat → M) (m : List (String × M)) :
    foldIdx (dimStep keyI z v) 0 (allergies.map NodeType.NutAllergyStatus) m =
      m := rfl

theorem allergyStep_cats (g : Graph) :
    foldIdx (allergyStep g) 0 (allergies.map NodeType.NutAllergyStatus) [] =
      analyzedRaw g := rfl

theorem dimStep_inds {M : Type} [Add M] (keyI : Individual → String) (z : M)
    (v : Nat → M) :
    ∀ (rs : List Record) (i : Nat) (m : List (String × M)),
      foldIdx (dimStep keyI z v) i (rs.map indNode) m =
        bumpFold z (pairsOf (fun r => keyI (mkIndividual r)) v i rs) m := by
  intro rs
  induction rs with
  | nil => intro i m; rfl
  | cons r rest ih =>
    intro i m
    show foldIdx (dimStep keyI z v) (i + 1) (rest.map indNode)
      (dimStep keyI z v m i (indNode r)) = _
    rw [ih (i + 1)]
    rfl

theorem allergyStep_inds (g : Graph) :
    ∀ (rs : List Record) (i : Nat) (m : List (String × ℚ)),
      foldIdx (allergyStep g) i (rs.map indNode) m = m := by
  intro rs
  induction rs with
  | nil => intro i m; rfl
  | cons r rest ih =>
    intro i m
    show foldIdx (allergyStep g) (i + 1) (rest.map indNode)
      (allergyStep g m i (indNode r)) = _
    rw [ih (i + 1)]
    rfl

theorem lookupKey_bump {M : Type} (m : List (String × M)) (k k2 : String)
    (z : M) (f : M → M) :
    lookupKey (bump m k2 z f) k =
      if k = k2 then
        (match lookupKey m k2 with
         | some v => some (f v)
         | none => some (f z))
      else lookupKey m k := by
  induction m with
  | nil =>
    by_cases hk : k = k2
    · subst hk; simp [bump, lookupKey]
    · simp [bump, lookupKey, beq_iff_eq, hk, Ne.symm hk]
  | cons p rest ih =>
    obtain ⟨pk, pv⟩ := p
    by_cases hp : pk = k2
    · subst hp
      by_cases hk : k = pk
      · subst hk; simp [bump, lookupKey]
      · simp [bump, lookupKey, beq_iff_eq, hk, Ne.symm hk]
    · by_cases hpk : pk = k
      · have hk2 : ¬(k = k2) := fun h => hp (hpk.trans h)
        simp [bump, lookupKey, beq_iff_eq, hp, hpk, hk2]
      · simp [bump, lookupKey, beq_iff_eq, hp, hpk, ih]

theorem lookupKey_bumpFold {M : Type} [AddMonoid M] (ps : List (String × M))
    (k : String) :
    ∀ m : List (String × M),
      lookupKey (bumpFold 0 ps m) k =
        match lookupKey m k with
        | some v =>
          some (v + ((ps.filter (fun p => p.1 == k)).map Prod.snd).sum)
        | none =>
          if (ps.filter (fun p => p.1 == k)).isEmpty then none
          else some ((ps.filter (fun p => p.1 == k)).map Prod.snd).sum := by
  induction ps with
  | nil =>
    intro m
    cases h : lookupKey m k <;> simp [bumpFold, h]
  | cons q rest ih =>
    intro m
    obtain ⟨qk, qv⟩ := q
    show lookupKey (bumpFold 0 rest (bump m qk 0 (· + qv))) k = _
    rw [ih (bump m qk 0 (· + qv))]
    rw [lookupKey_bump]
    by_cases hq : qk = k
    · subst hq
      rw [if_pos rfl]
      cases h : lookupKey m qk with
      | some v =>
        simp [List.filter_cons, h, add_assoc]
      | none =>
        simp [List.filter_cons, h]
    · rw [if_neg (fun h => hq h.symm)]
      have hfilter : ((qk, qv) :: rest).filter (fun p => p.1 == k) =
          rest.filter (fun p => p.1 == k) := by
        simp [List.filter_cons, hq]
      rw [hfilter]

theorem pairsOf_ones_sum (keyR : Record → String) :
    ∀ (rs : List Record) (i : Nat) (k : String),
      (((pairsOf keyR (fun _ => (1 : Nat)) i rs).filter
        (fun p => p.1 == k)).map Prod.snd).sum =
      ((pairsOf keyR (fun _ => (1 : Nat)) i rs).filter
        (fun p => p.1 == k)).length := by
  intro rs
  induction rs with
  | nil => intro i k; rfl
  | cons r rest ih =>
    intro i k
    simp only [pairsOf]
    by_cases h : keyR r = k
    · simp [List.filter_cons, h, ih (i + 1) k]
      omega
    · simp [List.filter_cons, h, ih (i + 1) k]

theorem pairsOf_filter_length {M N : Type} (keyR : Record → String)
    (v1 : Nat → M) (v2 : Nat → N) :
    ∀ (rs : List Record) (i : Nat) (k : String),
      ((pairsOf keyR v1 i rs).filter (fun p => p.1 == k)).length =
      ((pairsOf keyR v2 i rs).filter (fun p => p.1 == k)).length := by
  intro rs
  induction rs with
  | nil => intro i k; rfl
  | cons r rest ih =>
    intro i k
    simp only [pairsOf]
    by_cases h : keyR r = k <;>
      simp [List.filter_cons, h, ih (i + 1) k]

theorem lookupKey_averages (cent : List (String × ℚ))
    (counts : List (String × Nat)) (k : String) :
    lookupKey (averages cent counts) k =
      (lookupKey cent k).map (fun s =>
        s / (match lookupKey counts k with
             | some c => (c : ℚ)
             | none => 1)) := by
  induction cent with
  | nil => rfl
  | cons p rest ih =>
    obtain ⟨pk, pv⟩ := p
    by_cases hk : pk = k
    · subst hk
      simp [averages, lookupKey]
    · simp [averages, lookupKey, beq_iff_eq, hk]
      simpa [averages] using ih

/-- C4: `calculate_centrality` computes and stores one raw (non-averaged)
value — the centrality it computes at the category's node — for exactly
the seven categories Peanut, Treenut, Walnut, Pecan, Pistachio, Almond,
Cashew, and for no other category, regardless of input. -/
theorem c4_seven_analyzed (rs : List Record) :
    (calculate_centrality (create_graph rs)).allergy =
      analyzedRaw (create_graph rs) ∧
    ((calculate_centrality (create_graph rs)).allergy.map Prod.fst) =
      analyzedAllergies := by
  have hproj : ∀ s i n,
      (processNode (create_graph rs) s i n).allergy_centrality =
        allergyStep (create_graph rs) s.allergy_centrality i n := by
    intro s i n
    cases n with
    | Individual ind => rfl
    | NutAllergyStatus a =>
      by_cases h : a ∈ analyzedAllergies <;>
        simp [processNode, allergyStep, h]
  have hmain : (calculate_centrality (create_graph rs)).allergy =
      analyzedRaw (create_graph rs) := by
    show (analyzeNodes (create_graph rs) 0 (create_graph rs).nodes
      initState).allergy_centrality = _
    rw [analyzeNodes_proj (create_graph rs)
      (fun s => s.allergy_centrality) (allergyStep (create_graph rs)) hproj]
    rw [nodes_create_graph, foldIdx_append]
    rw [show initState.allergy_centrality = ([] : List (String × ℚ)) from rfl]
    rw [allergyStep_cats]
    rw [allergyStep_inds]
  refine ⟨hmain, ?_⟩
  rw [hmain]
  simp [analyzedRaw, List.map_map]
  rfl

theorem dim_report_eq (rs : List Record) (keyI : Individual → String)
    (keyR : Record → String) (hkey : ∀ r, keyI (mkIndividual r) = keyR r)
    (πc : AnalyzerState → List (String × ℚ))
    (πn : AnalyzerState → List (String × Nat))
    (hc : ∀ s i n, πc (processNode (create_graph rs) s i n) =
      dimStep keyI 0 (fun i2 => (outDegree (create_graph rs) i2 : ℚ)) (πc s) i n)
    (hn : ∀ s i n, πn (processNode (create_graph rs) s i n) =
      dimStep keyI 0 (fun _ => (1 : Nat)) (πn s) i n)
    (hic : πc initState = []) (hin : πn initState = [])
    (v : String) :
    lookupKey (averages
      (πc (analyzeNodes (create_graph rs) 0 (create_graph rs).nodes initState))
      (πn (analyzeNodes (create_graph rs) 0 (create_graph rs).nodes initState)))
      v =
      if (bucketOf (create_graph rs) keyR rs v).isEmpty then none
      else some (((bucketOf (create_graph rs) keyR rs v).map Prod.snd).sum /
        ((bucketOf (create_graph rs) keyR rs v).length : ℚ)) := by
  have hkeyfun : (fun r => keyI (mkIndividual r)) = keyR := funext hkey
  have hcent : πc (analyzeNodes (create_graph rs) 0 (create_graph rs).nodes
      initState) =
      bumpFold 0 (pairsOf keyR (fun i2 => (outDegree (create_graph rs) i2 : ℚ))
        9 rs) [] := by
    rw [analyzeNodes_proj (create_graph rs) πc _ hc, hic, nodes_create_graph,
      foldIdx_append, dimStep_cats, dimStep_inds, hkeyfun]
    rfl
  have hcounts : πn (analyzeNodes (create_graph rs) 0 (create_graph rs).nodes
      initState) =
      bumpFold 0 (pairsOf keyR (fun _ => (1 : Nat)) 9 rs) [] := by
    rw [analyzeNodes_proj (create_graph rs) πn _ hn, hin, nodes_create_graph,
      foldIdx_append, dimStep_cats, dimStep_inds, hkeyfun]
    rfl
  rw [lookupKey_averages, hcent, hcounts]
  rw [lookupKey_bumpFold, lookupKey_bumpFold]
  rw [show lookupKey ([] : List (String × ℚ)) v = none from rfl]
  rw [show lookupKey ([] : List (String × Nat)) v = none from rfl]
  have hsame : ((pairsOf keyR (fun _ => (1 : Nat)) 9 rs).filter
      (fun p => p.1 == v)).length =
      (bucketOf (create_graph rs) keyR rs v).length :=
    pairsOf_filter_length keyR (fun _ => (1 : Nat))
      (fun i2 => (outDegree (create_graph rs) i2 : ℚ)) rs 9 v
  by_cases hemp : (bucketOf (create_graph rs) keyR rs v).isEmpty = true
  · rw [if_pos hemp]
    rw [show (pairsOf keyR (fun i2 => (outDegree (create_graph rs) i2 : ℚ))
      9 rs).filter (fun p => p.1 == v) = bucketOf (create_graph rs) keyR rs v
      from rfl]
    rw [if_pos hemp]
    rfl
  · rw [if_neg hemp]
    rw [show (pairsOf keyR (fun i2 => (outDegree (create_graph rs) i2 : ℚ))
      9 rs).filter (fun p => p.1 == v) = bucketOf (create_graph rs) keyR rs v
      from rfl]
    rw [if_neg hemp]
    have hblen : ¬((bucketOf (create_graph rs) keyR rs v).length = 0) := by
      intro h0
      exact hemp (by rw [List.isEmpty_iff_length_eq_zero]; exact h0)
    have hemp2 : ((pairsOf keyR (fun _ => (1 : Nat)) 9 rs).filter
        (fun p => p.1 == v)).isEmpty = false := by
      rw [Bool.eq_false_iff]
      intro hE
      rw [List.isEmpty_iff_length_eq_zero] at hE
      omega
    rw [if_neg (by rw [hemp2]; exact Bool.false_ne_true)]
    rw [Option.map_some']
    rw [pairsOf_ones_sum, hsame]

/-- C5: for every demographic dimension and bucket value, the reported
average is the sum of the degrees of the individuals in that bucket
divided by the number of such individuals (so the `unwrap_or(1)` fallback
divisor is never used: a bucket appears in the report exactly when it has
at least one member, and the divisor is then its true member count). -/
theorem c5_bucket_averages (rs : List Record) (v : String) :
    (lookupKey (calculate_centrality (create_graph rs)).gender v =
      if (bucketOf (create_graph rs) genderKey rs v).isEmpty then none
      else some (((bucketOf (create_graph rs) genderKey rs v).map Prod.snd).sum /
        ((bucketOf (create_graph rs) genderKey rs v).length : ℚ))) ∧
    (lookupKey (calculate_centrality (create_graph rs)).race v =
      if (bucketOf (create_graph rs) raceKey rs v).isEmpty then none
      else some (((bucketOf (create_graph rs) raceKey rs v).map Prod.snd).sum /
        ((bucketOf (create_graph rs) raceKey rs v).length : ℚ))) ∧
    (lookupKey (calculate_centrality (create_graph rs)).ethnicity v =
      if (bucketOf (create_graph rs) ethnicityKey rs v).isEmpty then none
      else some (((bucketOf (create_graph rs) ethnicityKey rs v).map
        Prod.snd).sum /
        ((bucketOf (create_graph rs) ethnicityKey rs v).length : ℚ))) ∧
    (lookupKey (calculate_centrality (create_graph rs)).payer v =
      if (bucketOf (create_graph rs) payerKey rs v).isEmpty then none
      else some (((bucketOf (create_graph rs) payerKey rs v).map Prod.snd).sum /
        ((bucketOf (create_graph rs) payerKey rs v).length : ℚ))) ∧
    (lookupKey (calculate_centrality (create_graph rs)).cohort v =
      if (bucketOf (create_graph rs) cohortKey rs v).isEmpty then none
      else some (((bucketOf (create_graph rs) cohortKey rs v).map Prod.snd).sum /
        ((bucketOf (create_graph rs) cohortKey rs v).length : ℚ))) ∧
    (lookupKey (calculate_centrality
      (create_graph [recDegTwo, recDegFour, recDegSix])).gender "Male" =
      some 4) ∧
    (lookupKey (calculate_centrality (create_graph [recDegThree])).gender "Male" =
      some 3) := by
  refine ⟨?_, ?_, ?_, ?_, ?_, ?_, ?_⟩
  · exact dim_report_eq rs (fun ind => ind.gender) genderKey (fun r => rfl)
      (fun s => s.gender_centrality) (fun s => s.gender_counts)
      (by intro s i n; cases n with
        | Individual ind => rfl
        | NutAllergyStatus a =>
          by_cases h : a ∈ analyzedAllergies <;>
            simp [processNode, dimStep, h])
      (by intro s i n; cases n with
        | Individual ind => rfl
        | NutAllergyStatus a =>
          by_cases h : a ∈ analyzedAllergies <;>
            simp [processNode, dimStep, h])
      rfl rfl v
  · exact dim_report_eq rs (fun ind => ind.race) raceKey (fun r => rfl)
      (fun s => s.race_centrality) (fun s => s.race_counts)
      (by intro s i n; cases n with
        | Individual ind => rfl
        | NutAllergyStatus a =>
          by_cases h : a ∈ analyzedAllergies <;>
            simp [processNode, dimStep, h])
      (by intro s i n; cases n with
        | Individual ind => rfl
        | NutAllergyStatus a =>
          by_cases h : a ∈ analyzedAllergies <;>
            simp [processNode, dimStep, h])
      rfl rfl v
  · exact dim_report_eq rs (fun ind => ind.ethnicity) ethnicityKey (fun r => rfl)
      (fun s => s.ethnicity_centrality) (fun s => s.ethnicity_counts)
      (by intro s i n; cases n with
        | Individual ind => rfl
        | NutAllergyStatus a =>
          by_cases h : a ∈ analyzedAllergies <;>
            simp [processNode, dimStep, h])
      (by intro s i n; cases n with
        | Individual ind => rfl
        | NutAllergyStatus a =>
          by_cases h : a ∈ analyzedAllergies <;>
            simp [processNode, dimStep, h])
      rfl rfl v
  · exact dim_report_eq rs (fun ind => ind.payer_factor) payerKey (fun r => rfl)
      (fun s => s.payer_centrality) (fun s => s.payer_counts)
      (by intro s i n; cases n with
        | Individual ind => rfl
        | NutAllergyStatus a =>
          by_cases h : a ∈ analyzedAllergies <;>
            simp [processNode, dimStep, h])
      (by intro s i n; cases n with
        | Individual ind => rfl
        | NutAllergyStatus a =>
          by_cases h : a ∈ analyzedAllergies <;>
            simp [processNode, dimStep, h])
      rfl rfl v
  · exact dim_report_eq rs
      (fun ind => if ind.atopic_march_cohort then "true" else "false") cohortKey
      (fun r => rfl)
      (fun s => s.cohort_centrality) (fun s => s.cohort_counts)
      (by intro s i n; cases n with
        | Individual ind => rfl
        | NutAllergyStatus a =>
          by_cases h : a ∈ analyzedAllergies <;>
            simp [processNode, dimStep, h])
      (by intro s i n; cases n with
        | Individual ind => rfl
        | NutAllergyStatus a =>
          by_cases h : a ∈ analyzedAllergies <;>
            simp [processNode, dimStep, h])
      rfl rfl v
  · have h := dim_report_eq [recDegTwo, recDegFour, recDegSix]
      (fun ind => ind.gender) genderKey (fun r => rfl)
      (fun s => s.gender_centrality) (fun s => s.gender_counts)
      (by intro s i n; cases n with
        | Individual ind => rfl
        | NutAllergyStatus a =>
          by_cases h : a ∈ analyzedAllergies <;>
            simp [processNode, dimStep, h])
      (by intro s i n; cases n with
        | Individual ind => rfl
        | NutAllergyStatus a =>
          by_cases h : a ∈ analyzedAllergies <;>
            simp [processNode, dimStep, h])
      rfl rfl "Male"
    rw [show lookupKey (calculate_centrality
      (create_graph [recDegTwo, recDegFour, recDegSix])).gender "Male" =
      lookupKey (averages
        ((analyzeNodes (create_graph [recDegTwo, recDegFour, recDegSix]) 0
          (create_graph [recDegTwo, recDegFour, recDegSix]).nodes
          initState).gender_centrality)
        ((analyzeNodes (create_graph [recDegTwo, recDegFour, recDegSix]) 0
          (create_graph [recDegTwo, recDegFour, recDegSix]).nodes
          initState).gender_counts)) "Male" from rfl]
    rw [h]
    rw [show bucketOf (create_graph [recDegTwo, recDegFour, recDegSix])
      genderKey [recDegTwo, recDegFour, recDegSix] "Male" =
      [("Male", ((2 : Nat) : ℚ)), ("Male", ((4 : Nat) : ℚ)),
       ("Male", ((6 : Nat) : ℚ))] from rfl]
    norm_num
  · have h := dim_report_eq [recDegThree]
      (fun ind => ind.gender) genderKey (fun r => rfl)
      (fun s => s.gender_centrality) (fun s => s.gender_counts)
      (by intro s i n; cases n with
        | Individual ind => rfl
        | NutAllergyStatus a =>
          by_cases h : a ∈ analyzedAllergies <;>
            simp [processNode, dimStep, h])
      (by intro s i n; cases n with
        | Individual ind => rfl
        | NutAllergyStatus a =>
          by_cases h : a ∈ analyzedAllergies <;>
            simp [processNode, dimStep, h])
      rfl rfl "Male"
    rw [show lookupKey (calculate_centrality
      (create_graph [recDegThree])).gender "Male" =
      lookupKey (averages
        ((analyzeNodes (create_graph [recDegThree]) 0
          (create_graph [recDegThree]).nodes initState).gender_centrality)
        ((analyzeNodes (create_graph [recDegThree]) 0
          (create_graph [recDegThree]).nodes initState).gender_counts))
        "Male" from rfl]
    rw [h]
    rw [show bucketOf (create_graph [recDegThree]) genderKey [recDegThree]
      "Male" = [("Male", ((3 : Nat) : ℚ))] from rfl]
    norm_num

theorem relevant_congr (r1 r2 : Record)
    (h : relevantFields r1 = relevantFields r2) :
    indNode r1 = indNode r2 ∧ ∀ n, edgesFor r1 n = edgesFor r2 n := by
  simp only [relevantFields, Prod.mk.injEq] at h
  obtain ⟨h1, h2, h3, h4, h5, h6, h7, h8, h9, h10, h11, h12, h13, h14, h15⟩ := h
  constructor
  · simp only [indNode, mkIndividual]
    rw [h1, h2, h3, h4, h5, h6]
  · intro n
    rw [edgesFor_eq, edgesFor_eq, h7, h8, h9, h10, h11, h12, h13, h14, h15]

theorem relevant_congr_lists :
    ∀ (l1 l2 : List Record),
      l1.map relevantFields = l2.map relevantFields →
      l1.map indNode = l2.map indNode ∧ ∀ n, edgesFrom n l1 = edgesFrom n l2 := by
  intro l1
  induction l1 with
  | nil =>
    intro l2 hh
    cases l2 with
    | nil => exact ⟨rfl, fun n => rfl⟩
    | cons b t2 => simp at hh
  | cons a t ih =>
    intro l2 hh
    cases l2 with
    | nil => simp at hh
    | cons b t2 =>
      simp only [List.map_cons, List.cons.injEq] at hh
      obtain ⟨hab, ht⟩ := hh
      obtain ⟨hi, he⟩ := relevant_congr a b hab
      obtain ⟨hmap, hedges⟩ := ih t2 ht
      constructor
      · simp only [List.map_cons, hi, hmap]
      · intro n
        simp only [edgesFrom]
        rw [he n, hedges (n + 1)]

/-- C10: the graph, and hence the report, depends only on each record's
subject id, five demographic attributes, and nine onset (`*_alg_start`)
fields; two inputs agreeing on those (`relevantFields`) record-by-record
yield identical graphs and identical reports no matter how their birth
years, age windows, or `*_alg_end` fields differ. -/
theorem c10_depends_only_on_relevant (rs1 rs2 : List Record)
    (h : rs1.map relevantFields = rs2.map relevantFields) :
    create_graph rs1 = create_graph rs2 ∧
    calculate_centrality (create_graph rs1) =
      calculate_centrality (create_graph rs2) := by
  have hg : create_graph rs1 = create_graph rs2 := by
    rw [create_graph_eq, create_graph_eq]
    obtain ⟨hmap, hedges⟩ := relevant_congr_lists rs1 rs2 h
    rw [hmap, hedges 9]
  exact ⟨hg, by rw [hg]⟩

/-- Witness for C10 at concrete inputs: the mock record and its variant
(different birth year, age window and offset fields, including a present
hazelnut offset with an absent hazelnut onset) yield the same graph and
report, and that graph's only edge is the peanut edge — in particular the
variant's present hazelnut offset creates no edge. -/
theorem c10_witness :
    (create_graph [mockRecord] = create_graph [mockRecordVariant] ∧
      calculate_centrality (create_graph [mockRecord]) =
        calculate_centrality (create_graph [mockRecordVariant])) ∧
    (create_graph [mockRecordVariant]).edges = [(9, 0)] :=
  ⟨c10_depends_only_on_relevant [mockRecord] [mockRecordVariant] (by rfl),
   by decide⟩

end NutAllergy
